import Mathlib

/-!
Verification of the in-memory sliding-window rate limiter of `atams.middleware.rate_limiter`
(`atams-toolkit`), shallowly embedded in Lean.

The Python module stores per-client state in
`self.clients : Dict[str, Tuple[int, float]] = defaultdict(lambda: (0, time.time()))`,
mapping a client id to `(request_count, window_start_time)`.  We embed the dictionary as an
association list `List (String × Int × Int)` (insertion ordered, unique keys as for a Python
dict) and timestamps as integers.  Every operation takes the current time explicitly, standing
for the `time.time()` calls in the source.
-/

set_option linter.unusedVariables false

/-- Lookup in the client dictionary: first entry whose key equals `cid`
(`self.clients[client_id]` read, Python dict lookup). -/
def lookupClient : List (String × Int × Int) → String → Option (Int × Int)
  | [], _ => none
  | e :: rest, cid => if e.1 = cid then some (e.2.1, e.2.2) else lookupClient rest cid

/-- Dictionary assignment `self.clients[client_id] = v`: replace the entry for `cid`
in place when present, otherwise append it at the end (Python dict order semantics). -/
def setClient : List (String × Int × Int) → String → Int × Int → List (String × Int × Int)
  | [], cid, v => [(cid, v.1, v.2)]
  | e :: rest, cid, v =>
    if e.1 = cid then (cid, v.1, v.2) :: rest else e :: setClient rest cid v

/-- `RateLimiter.__init__`: `requests` is the max requests per window, `window` the window in
seconds, `clients` the `defaultdict` of per-client `(count, window_start)` state. -/
structure RateLimiter where
  requests : Int
  window : Int
  clients : List (String × Int × Int)
  deriving Repr, DecidableEq

/-- `RateLimiter.is_allowed(client_id)` at clock reading `current_time` (= `time.time()`).

The read `count, window_start = self.clients[client_id]` hits a `defaultdict`, so a missing
key is inserted as `(0, current_time)` by the lookup itself; then:
window expired (`current_time - window_start >= self.window`) resets to `(1, current_time)`
and returns `(True, requests - 1)`; active window with `count >= requests` denies with
`(False, 0)` and no mutation; otherwise the count is incremented and the call returns
`(True, requests - (count + 1))`.  Result: `((allowed, remaining), new limiter state)`. -/
def RateLimiter.is_allowed (rl : RateLimiter) (client_id : String) (current_time : Int) :
    (Bool × Int) × RateLimiter :=
  let clients₀ :=
    match lookupClient rl.clients client_id with
    | some _ => rl.clients
    | none => rl.clients ++ [(client_id, 0, current_time)]
  let p := (lookupClient rl.clients client_id).getD (0, current_time)
  let count := p.1
  let window_start := p.2
  if current_time - window_start ≥ rl.window then
    ((true, rl.requests - 1),
     { rl with clients := setClient clients₀ client_id (1, current_time) })
  else if count ≥ rl.requests then
    ((false, 0), { rl with clients := clients₀ })
  else
    ((true, rl.requests - (count + 1)),
     { rl with clients := setClient clients₀ client_id (count + 1, window_start) })

/-- `RateLimiter.cleanup_expired()` at clock reading `current_time`: delete every entry whose
elapsed time since `window_start` satisfies `current_time - window_start >= self.window * 2`,
keeping the others in order. -/
def RateLimiter.cleanup_expired (rl : RateLimiter) (current_time : Int) : RateLimiter :=
  { rl with clients :=
      rl.clients.filter (fun e => !decide (current_time - e.2.2 ≥ rl.window * 2)) }

/-- `create_rate_limiter(requests, window)`. -/
def create_rate_limiter (requests window : Int) : RateLimiter :=
  { requests := requests, window := window, clients := [] }

/-- A sequence of `is_allowed` calls for one client at the given clock readings, returning
the list of `(allowed, remaining)` results and the final limiter state. -/
def runCalls (rl : RateLimiter) (cid : String) : List Int → List (Bool × Int) × RateLimiter
  | [] => ([], rl)
  | t :: ts =>
    let r := rl.is_allowed cid t
    let rest := runCalls r.2 cid ts
    (r.1 :: rest.1, rest.2)

/-- State of `ConfiguredRateLimitMiddleware` (closure fields included):
the owned limiter, the periodic-cleanup counter, and the captured configuration. -/
structure Middleware where
  rate_limiter : RateLimiter
  cleanup_counter : Int
  enabled : Bool
  requests_limit : Int
  window_seconds : Int
  deriving Repr, DecidableEq

/-- `ConfiguredRateLimitMiddleware.__init__` for configuration
`(rate_limit_enabled, requests, window)`. -/
def Middleware.init (rate_limit_enabled : Bool) (requests window : Int) : Middleware :=
  { rate_limiter := create_rate_limiter requests window
    cleanup_counter := 0
    enabled := rate_limit_enabled
    requests_limit := requests
    window_seconds := window }

/-- Observable outcome of one `dispatch` call: pass-through with no rate-limit work,
a 429 rejection (`HTTPException` detail fields), or a forwarded request whose response
carries the three `X-RateLimit-*` header values as strings. -/
inductive DispatchResult where
  | bypass
  | denied (message : String) (limit : Int) (window : String) (retry_after : Int)
  | allowed (limitHeader remainingHeader windowHeader : String)
  deriving Repr, DecidableEq

/-- `request.client.host if request.client else "unknown"`: the client id used by the
middleware, with the shared `"unknown"` sentinel for address-less requests. -/
def clientIp (client : Option String) : String :=
  match client with
  | some host => host
  | none => "unknown"

/-- `ConfiguredRateLimitMiddleware.dispatch` at clock reading `current_time`:
disabled or docs/redoc/openapi paths bypass; otherwise the client ip (or the `"unknown"`
sentinel) is checked against the limiter; denial raises the 429 with
`{message, limit, window, retry_after}`; an allowed request gets headers
`str(requests_limit)`, `str(remaining)`, `f"{window_seconds}s"`, then the cleanup counter
is incremented and, at 100, `cleanup_expired` runs and the counter resets to 0. -/
def Middleware.dispatch (m : Middleware) (path : String) (client : Option String)
    (current_time : Int) : DispatchResult × Middleware :=
  if ¬ m.enabled then (DispatchResult.bypass, m)
  else if path ∈ (["/docs", "/redoc", "/openapi.json"] : List String) then
    (DispatchResult.bypass, m)
  else
    let client_ip := clientIp client
    let r := m.rate_limiter.is_allowed client_ip current_time
    let m₁ := { m with rate_limiter := r.2 }
    if ¬ r.1.1 then
      (DispatchResult.denied "Rate limit exceeded" m.requests_limit
        (toString m.window_seconds ++ "s") m.window_seconds, m₁)
    else
      let cleanup_counter := m₁.cleanup_counter + 1
      if cleanup_counter ≥ 100 then
        (DispatchResult.allowed (toString m.requests_limit) (toString r.1.2)
          (toString m.window_seconds ++ "s"),
         { m₁ with
            rate_limiter := m₁.rate_limiter.cleanup_expired current_time
            cleanup_counter := 0 })
      else
        (DispatchResult.allowed (toString m.requests_limit) (toString r.1.2)
          (toString m.window_seconds ++ "s"),
         { m₁ with cleanup_counter := cleanup_counter })

example :
    (runCalls (create_rate_limiter 3 60) "A" [0, 1, 2, 3]).1
      = [(true, 2), (true, 1), (true, 0), (false, 0)] := by decide

example :
    ((create_rate_limiter 3 60).is_allowed "A" 0).2.clients = [("A", 1, 0)] := by decide

/-! ### Basic lemmas on the client dictionary -/

theorem lookupClient_setClient_self (l : List (String × Int × Int)) (cid : String)
    (v : Int × Int) : lookupClient (setClient l cid v) cid = some v := by
  induction l with
  | nil => simp [setClient, lookupClient]
  | cons e rest ih =>
    by_cases h : e.1 = cid
    · simp [setClient, lookupClient, h]
    · simp [setClient, lookupClient, h, ih]

theorem lookupClient_setClient_other (l : List (String × Int × Int)) (cid b : String)
    (v : Int × Int) (hne : b ≠ cid) :
    lookupClient (setClient l cid v) b = lookupClient l b := by
  induction l with
  | nil => simp [setClient, lookupClient, Ne.symm hne]
  | cons e rest ih =>
    by_cases h : e.1 = cid
    · simp [setClient, lookupClient, h, Ne.symm hne]
    · by_cases hb : e.1 = b
      · simp [setClient, lookupClient, h, hb, hne]
      · simp [setClient, lookupClient, h, hb, ih]

theorem lookupClient_append_singleton_ne (l : List (String × Int × Int)) (a b : String)
    (x y : Int) (hne : b ≠ a) :
    lookupClient (l ++ [(a, x, y)]) b = lookupClient l b := by
  induction l with
  | nil => simp [lookupClient, Ne.symm hne]
  | cons e rest ih =>
    by_cases h : e.1 = b
    · simp [lookupClient, h]
    · simp [lookupClient, h, ih]

theorem lookupClient_append_singleton_self (l : List (String × Int × Int)) (a : String)
    (x y : Int) (habs : lookupClient l a = none) :
    lookupClient (l ++ [(a, x, y)]) a = some (x, y) := by
  induction l with
  | nil => simp [lookupClient]
  | cons e rest ih =>
    by_cases h : e.1 = a
    · simp [lookupClient, h] at habs
    · simp [lookupClient, h] at habs ⊢
      exact ih habs

/-! ### Branch characterizations of `is_allowed` -/

/-- Window-expired branch: the window resets to `(1, current_time)` and the call is allowed
with `requests - 1` remaining. -/
theorem is_allowed_reset (rl : RateLimiter) (cid : String) (t k t₀ : Int)
    (hfound : lookupClient rl.clients cid = some (k, t₀)) (hexp : t - t₀ ≥ rl.window) :
    rl.is_allowed cid t
      = ((true, rl.requests - 1),
         { rl with clients := setClient rl.clients cid (1, t) }) := by
  simp [RateLimiter.is_allowed, hfound, hexp]

/-- Active-window denial branch: a denied call returns `(false, 0)` and the limiter state is
unchanged. -/
theorem is_allowed_denied (rl : RateLimiter) (cid : String) (t k t₀ : Int)
    (hfound : lookupClient rl.clients cid = some (k, t₀)) (hact : ¬ t - t₀ ≥ rl.window)
    (hfull : k ≥ rl.requests) :
    rl.is_allowed cid t = ((false, 0), rl) := by
  simp [RateLimiter.is_allowed, hfound, hact, hfull]

/-- Active-window increment branch: the count goes up by one and the call is allowed with
`requests - (count + 1)` remaining. -/
theorem is_allowed_incr (rl : RateLimiter) (cid : String) (t k t₀ : Int)
    (hfound : lookupClient rl.clients cid = some (k, t₀)) (hact : ¬ t - t₀ ≥ rl.window)
    (hroom : ¬ k ≥ rl.requests) :
    rl.is_allowed cid t
      = ((true, rl.requests - (k + 1)),
         { rl with clients := setClient rl.clients cid (k + 1, t₀) }) := by
  simp [RateLimiter.is_allowed, hfound, hact, hroom]

/-- Defaultdict semantics: a call for an absent client behaves exactly like a call on the
state where `(cid, 0, current_time)` has just been inserted at the end of the dictionary. -/
theorem is_allowed_fresh (rl : RateLimiter) (cid : String) (t : Int)
    (habs : lookupClient rl.clients cid = none) :
    rl.is_allowed cid t
      = RateLimiter.is_allowed
          { rl with clients := rl.clients ++ [(cid, 0, t)] } cid t := by
  have hins := lookupClient_append_singleton_self rl.clients cid 0 t habs
  simp [RateLimiter.is_allowed, habs, hins]

theorem is_allowed_requests (rl : RateLimiter) (cid : String) (t : Int) :
    ((rl.is_allowed cid t).2).requests = rl.requests := by
  simp only [RateLimiter.is_allowed]
  split
  · simp
  · split <;> simp

theorem is_allowed_window (rl : RateLimiter) (cid : String) (t : Int) :
    ((rl.is_allowed cid t).2).window = rl.window := by
  simp only [RateLimiter.is_allowed]
  split
  · simp
  · split <;> simp

/-! ### Characterization of in-window call sequences -/

/-- The `(allowed, remaining)` results produced by a sequence of in-window calls when the
client's count starts at `k` and the limit is `n`: allowed with decreasing remaining while
the count is below `n`, denied with `(false, 0)` afterwards. -/
def expectedResults (n : Int) : Int → Nat → List (Bool × Int)
  | _, 0 => []
  | k, L + 1 =>
    if n ≤ k then (false, 0) :: expectedResults n k L
    else (true, n - (k + 1)) :: expectedResults n (k + 1) L

/-- A run of calls that all land inside the client's active window produces exactly
`expectedResults`, drives the count to `min (k + L) requests`, keeps `window_start`, and
never changes the configuration fields. -/
theorem runCalls_in_window (ts : List Int) (rl : RateLimiter) (cid : String) (k t₀ : Int)
    (hfound : lookupClient rl.clients cid = some (k, t₀))
    (hk : k ≤ rl.requests)
    (hin : ∀ t ∈ ts, t - t₀ < rl.window) :
    (runCalls rl cid ts).1 = expectedResults rl.requests k ts.length ∧
    lookupClient (runCalls rl cid ts).2.clients cid
      = some (min (k + (ts.length : Int)) rl.requests, t₀) ∧
    (runCalls rl cid ts).2.requests = rl.requests ∧
    (runCalls rl cid ts).2.window = rl.window := by
  induction ts generalizing rl k with
  | nil =>
    refine ⟨rfl, ?_, rfl, rfl⟩
    have hmin : k = min (k + ((([] : List Int).length : Nat) : Int)) rl.requests := by
      simp only [List.length_nil, Nat.cast_zero, add_zero]
      omega
    rw [show (runCalls rl cid []).2 = rl from rfl, hfound, ← hmin]
  | cons t ts ih =>
    have hact : ¬ t - t₀ ≥ rl.window := not_le.mpr (hin t (List.mem_cons_self t ts))
    have hin' : ∀ s ∈ ts, s - t₀ < rl.window := fun s hs => hin s (List.mem_cons_of_mem t hs)
    by_cases hfull : k ≥ rl.requests
    · have hstep := is_allowed_denied rl cid t k t₀ hfound hact hfull
      obtain ⟨h1, h2, h3, h4⟩ := ih rl k hfound hk hin'
      have hmin : min (k + ((ts.length : Int) + 1)) rl.requests
          = min (k + (ts.length : Int)) rl.requests := by omega
      refine ⟨?_, ?_, ?_, ?_⟩
      · simp [runCalls, hstep, h1, expectedResults, ge_iff_le.mp hfull]
      · simp only [runCalls, hstep, List.length_cons]
        push_cast
        rw [hmin]
        exact h2
      · simpa [runCalls, hstep] using h3
      · simpa [runCalls, hstep] using h4
    · have hstep := is_allowed_incr rl cid t k t₀ hfound hact hfull
      have hfound' :
          lookupClient ({ rl with clients := setClient rl.clients cid (k + 1, t₀)} :
            RateLimiter).clients cid = some (k + 1, t₀) :=
        lookupClient_setClient_self rl.clients cid (k + 1, t₀)
      obtain ⟨h1, h2, h3, h4⟩ :=
        ih { rl with clients := setClient rl.clients cid (k + 1, t₀) } (k + 1) hfound'
          (by simp; omega) (by simpa using hin')
      have hmin : min (k + ((ts.length : Int) + 1)) rl.requests
          = min (k + 1 + (ts.length : Int)) rl.requests := by omega
      refine ⟨?_, ?_, ?_, ?_⟩
      · simp only [runCalls, hstep, List.length_cons]
        rw [show expectedResults rl.requests k (ts.length + 1)
              = (true, rl.requests - (k + 1)) :: expectedResults rl.requests (k + 1) ts.length
            from by simp [expectedResults, hfull]]
        simpa using h1
      · simp only [runCalls, hstep, List.length_cons]
        push_cast
        rw [hmin]
        simpa using h2
      · simpa [runCalls, hstep] using h3
      · simpa [runCalls, hstep] using h4

/-- A run on a brand-new client id is, result-wise, the `count = 0` in-window run: the
defaultdict lookup of the first call inserts `(0, t₁)` and that first call already executes
inside the fresh window (its elapsed time is `0`). -/
theorem runCalls_fresh (rl : RateLimiter) (cid : String) (t₁ : Int) (rest : List Int)
    (habs : lookupClient rl.clients cid = none) (hw : 0 < rl.window)
    (hreq : 0 ≤ rl.requests) (hin : ∀ t ∈ rest, t - t₁ < rl.window) :
    (runCalls rl cid (t₁ :: rest)).1 = expectedResults rl.requests 0 (rest.length + 1) := by
  have hstep := is_allowed_fresh rl cid t₁ habs
  have hfound :
      lookupClient ({ rl with clients := rl.clients ++ [(cid, 0, t₁)] } :
        RateLimiter).clients cid = some (0, t₁) :=
    lookupClient_append_singleton_self rl.clients cid 0 t₁ habs
  have hin' : ∀ t ∈ t₁ :: rest,
      t - t₁ < ({ rl with clients := rl.clients ++ [(cid, 0, t₁)] } : RateLimiter).window := by
    intro t ht
    rcases List.mem_cons.mp ht with h | h
    · subst h
      simpa using hw
    · simpa using hin t h
  obtain ⟨h1, _, _, _⟩ :=
    runCalls_in_window (t₁ :: rest) { rl with clients := rl.clients ++ [(cid, 0, t₁)] }
      cid 0 t₁ hfound (by simpa using hreq) hin'
  have hrun : runCalls rl cid (t₁ :: rest)
      = runCalls { rl with clients := rl.clients ++ [(cid, 0, t₁)] } cid (t₁ :: rest) := by
    simp [runCalls, hstep]
  rw [hrun]
  simpa using h1

/-- Number of allowed and denied results in an in-window run starting from count `k`. -/
theorem expectedResults_counts (n : Int) (L : Nat) : ∀ k : Int,
    ((expectedResults n k L).filter (fun p => p.1)).length = min L (n - k).toNat ∧
    ((expectedResults n k L).filter (fun p => !p.1)).length = L - min L (n - k).toNat := by
  induction L with
  | zero => intro k; simp [expectedResults]
  | succ L ih =>
    intro k
    by_cases h : n ≤ k
    · obtain ⟨ha, hd⟩ := ih k
      constructor
      · simp only [expectedResults, if_pos h, List.filter_cons]
        simpa [ha] using by omega
      · simp only [expectedResults, if_pos h, List.filter_cons]
        simpa [hd, ha] using by omega
    · obtain ⟨ha, hd⟩ := ih (k + 1)
      constructor
      · simp only [expectedResults, if_neg h, List.filter_cons]
        simpa [ha] using by omega
      · simp only [expectedResults, if_neg h, List.filter_cons]
        simpa [hd, ha] using by omega

/-- Shape of a maximal allowed run: starting from count `k` with `n - k = d`, the next
`d + 1` in-window calls produce `d` allowed results with strictly decreasing remaining
`n-k-1, n-k-2, …, 0`, followed by one denial `(false, 0)`. -/
theorem expectedResults_run_shape : ∀ (d : Nat) (n k : Int), n - k = (d : Int) →
    expectedResults n k (d + 1)
      = (List.range d).map (fun i : Nat => ((true : Bool), n - k - 1 - (i : Int))) ++ [(false, 0)] := by
  intro d
  induction d with
  | zero =>
    intro n k h
    have hk : k = n := by omega
    subst hk
    simp [expectedResults]
  | succ d ih =>
    intro n k h
    have hlt : ¬ n ≤ k := by
      push_cast at h
      omega
    have ihh := ih n (k + 1) (by push_cast at h ⊢; omega)
    rw [show expectedResults n k (d + 1 + 1)
          = (true, n - (k + 1)) :: expectedResults n (k + 1) (d + 1) from by
        simp [expectedResults, hlt]]
    rw [ihh, List.range_succ_eq_map, List.map_cons, List.map_map]
    simp only [List.cons_append]
    congr 1
    · simp only [Nat.cast_zero, sub_zero]
      congr 1
      ring
    congr 1
    refine List.map_congr_left ?_
    intro i hi
    simp only [Function.comp_apply]
    congr 1
    push_cast
    ring

/-! ### Claims -/

/-- C1: for every configuration with `max_requests = N > 0` and a fresh client id, the first
`N` calls to `is_allowed` within one window are allowed with strictly decreasing remaining
values `N-1, N-2, …, 0`, and the `(N+1)`-th call within the same window is denied with
remaining `0`. -/
theorem c1_fresh_client_exhausts_quota (n : Nat) (rl : RateLimiter) (cid : String)
    (t₁ : Int) (rest : List Int)
    (hn : 0 < n) (hreq : rl.requests = (n : Int)) (hw : 0 < rl.window)
    (habs : lookupClient rl.clients cid = none)
    (hin : ∀ t ∈ rest, t - t₁ < rl.window)
    (hlen : rest.length = n) :
    (runCalls rl cid (t₁ :: rest)).1
      = (List.range n).map (fun i : Nat => ((true : Bool), (n : Int) - 1 - (i : Int)))
        ++ [(false, 0)] := by
  obtain ⟨d, rfl⟩ : ∃ d, n = d + 1 := ⟨n - 1, (Nat.succ_pred_eq_of_pos hn).symm⟩
  have h1 := runCalls_fresh rl cid t₁ rest habs hw (by rw [hreq]; push_cast; omega) hin
  rw [h1, hlen]
  rw [expectedResults_run_shape (d + 1) rl.requests 0 (by rw [hreq]; push_cast; ring)]
  congr 1
  refine List.map_congr_left ?_
  intro i _
  congr 1
  rw [hreq]
  ring

theorem c1_fresh_client_exhausts_quota_witness :
    (runCalls (create_rate_limiter 3 60) "A" [0, 1, 2, 3]).1
      = [(true, 2), (true, 1), (true, 0), (false, 0)] := by
  have h := c1_fresh_client_exhausts_quota 3 (create_rate_limiter 3 60) "A" 0 [1, 2, 3]
    (by decide) (by decide) (by decide) (by decide) (by decide) (by decide)
  simpa [List.range_succ] using h

/-- C3: a denied call mutates nothing: while the window is active and the count has reached
the limit, any sequence of calls keeps returning `(false, 0)` and leaves the limiter state
(the client's count and window_start included) exactly as it was. -/
theorem c3_denied_calls_do_not_mutate (rl : RateLimiter) (cid : String) (k t₀ : Int)
    (ts : List Int)
    (hfound : lookupClient rl.clients cid = some (k, t₀))
    (hfull : k ≥ rl.requests)
    (hin : ∀ t ∈ ts, t - t₀ < rl.window) :
    runCalls rl cid ts = (List.replicate ts.length ((false : Bool), (0 : Int)), rl) := by
  revert hin
  induction ts with
  | nil => intro _; rfl
  | cons t ts ih =>
    intro hin
    have hact : ¬ t - t₀ ≥ rl.window := not_le.mpr (hin t (List.mem_cons_self t ts))
    have hstep := is_allowed_denied rl cid t k t₀ hfound hact hfull
    have ihh := ih (fun s hs => hin s (List.mem_cons_of_mem t hs))
    simp [runCalls, hstep, ihh, List.replicate_succ]

theorem c3_denied_calls_do_not_mutate_witness :
    runCalls { requests := 2, window := 60, clients := [("A", 2, 0)] } "A" [1, 5, 59]
      = (List.replicate 3 ((false : Bool), (0 : Int)),
         { requests := 2, window := 60, clients := [("A", 2, 0)] }) :=
  c3_denied_calls_do_not_mutate
    { requests := 2, window := 60, clients := [("A", 2, 0)] } "A" 2 0 [1, 5, 59]
    (by decide) (by decide) (by decide)

/-- C4: once the client's window has elapsed (`now - window_start ≥ window_seconds`), the
next call is allowed with remaining `requests - 1` and the client's state is reset to
`(count = 1, window_start = now)`, whatever the previous count was. -/
theorem c4_elapsed_window_resets (rl : RateLimiter) (cid : String) (t k t₀ : Int)
    (hfound : lookupClient rl.clients cid = some (k, t₀))
    (hexp : t - t₀ ≥ rl.window) :
    (rl.is_allowed cid t).1 = (true, rl.requests - 1) ∧
    lookupClient ((rl.is_allowed cid t).2).clients cid = some (1, t) := by
  rw [is_allowed_reset rl cid t k t₀ hfound hexp]
  exact ⟨rfl, lookupClient_setClient_self rl.clients cid (1, t)⟩

theorem c4_elapsed_window_resets_witness :
    (RateLimiter.is_allowed { requests := 3, window := 60, clients := [("A", 3, 0)] } "A" 61).1
        = (true, 2) ∧
    lookupClient ((RateLimiter.is_allowed
        { requests := 3, window := 60, clients := [("A", 3, 0)] } "A" 61).2).clients "A"
        = some (1, 61) :=
  c4_elapsed_window_resets
    { requests := 3, window := 60, clients := [("A", 3, 0)] } "A" 61 3 0 (by decide) (by decide)

/-- C8: calls for one client id never affect another client's state: after
`is_allowed a`, the lookup of any `b ≠ a` (its presence, count and window_start)
is exactly what it was before the call. -/
theorem c8_client_isolation (rl : RateLimiter) (a b : String) (t : Int) (hne : b ≠ a) :
    lookupClient ((rl.is_allowed a t).2).clients b = lookupClient rl.clients b := by
  have happend : ∀ x y : Int,
      lookupClient (rl.clients ++ [(a, x, y)]) b = lookupClient rl.clients b :=
    fun x y => lookupClient_append_singleton_ne rl.clients a b x y hne
  simp only [RateLimiter.is_allowed]
  rcases hl : lookupClient rl.clients a with _ | p
  · simp only [hl]
    split
    · simpa [lookupClient_setClient_other _ a b _ hne] using happend 0 t
    · split
      · simpa using happend 0 t
      · simpa [lookupClient_setClient_other _ a b _ hne] using happend 0 t
  · simp only [hl]
    split
    · simp [lookupClient_setClient_other _ a b _ hne]
    · split
      · simp
      · simp [lookupClient_setClient_other _ a b _ hne]

theorem c8_client_isolation_witness :
    lookupClient ((RateLimiter.is_allowed
        { requests := 3, window := 60, clients := [("B", 2, 5)] } "A" 0).2).clients "B"
      = lookupClient [("B", 2, 5)] "B" :=
  c8_client_isolation { requests := 3, window := 60, clients := [("B", 2, 5)] } "A" "B" 0
    (by decide)

/-- C9: for a client id absent from the mapping, the defaultdict lookup inside
`is_allowed` inserts an entry as a side effect, so the client is present in the mapping
after every call; in particular with `max_requests = 0` (and a positive window) the first
call is denied yet the inserted `(count = 0, window_start = now)` entry stays behind. -/
theorem c9_fresh_lookup_inserts_entry (rl : RateLimiter) (cid : String) (t : Int)
    (habs : lookupClient rl.clients cid = none) :
    (lookupClient ((rl.is_allowed cid t).2).clients cid).isSome = true ∧
    (rl.requests = 0 → 0 < rl.window →
      (rl.is_allowed cid t).1 = (false, 0) ∧
      lookupClient ((rl.is_allowed cid t).2).clients cid = some (0, t)) := by
  rw [is_allowed_fresh rl cid t habs]
  have hfound :
      lookupClient ({ rl with clients := rl.clients ++ [(cid, 0, t)] } :
        RateLimiter).clients cid = some (0, t) :=
    lookupClient_append_singleton_self rl.clients cid 0 t habs
  constructor
  · by_cases hexp : t - t ≥ rl.window
    · rw [is_allowed_reset _ cid t 0 t hfound hexp]
      simp [lookupClient_setClient_self]
    · by_cases hfull : (0 : Int) ≥ rl.requests
      · rw [is_allowed_denied _ cid t 0 t hfound hexp hfull]
        simp [hfound]
      · rw [is_allowed_incr _ cid t 0 t hfound hexp hfull]
        simp [lookupClient_setClient_self]
  · intro hreq hw
    have hexp : ¬ t - t ≥ rl.window := by omega
    have hfull : (0 : Int) ≥ rl.requests := by omega
    rw [is_allowed_denied _ cid t 0 t hfound hexp hfull]
    exact ⟨rfl, hfound⟩

theorem c9_fresh_lookup_inserts_entry_witness :
    (lookupClient (((create_rate_limiter 0 60).is_allowed "A" 5).2).clients "A").isSome
        = true ∧
    ((create_rate_limiter 0 60).is_allowed "A" 5).1 = (false, 0) ∧
    lookupClient (((create_rate_limiter 0 60).is_allowed "A" 5).2).clients "A"
        = some (0, 5) := by
  have h := c9_fresh_lookup_inserts_entry (create_rate_limiter 0 60) "A" 5 (by decide)
  exact ⟨h.1, h.2 (by decide) (by decide)⟩

/-- C2 (evaluation at the failing input): with `max_requests = 0` and `window = 60`, a
fresh client "A" is denied at `t = 0`, but the call at `t = 60` — one full window after the
entry's `window_start` — takes the window-reset branch and returns `(true, -1)`: the code
does not implement permanent denial for `max_requests = 0`. -/
theorem c2_zero_limit_allows_after_window :
    (runCalls (create_rate_limiter 0 60) "A" [0, 60]).1 = [(false, 0), (true, -1)] := by
  decide

/-- C10: `N` admission checks for the same fresh client id, serialized in any order (each
check is one atomic read-modify-write; the list of clock readings is arbitrary within the
window), produce exactly `min N max_requests` allowed results and `N - min N max_requests`
denied ones — never more allowed than `max_requests`. -/
theorem c10_serialized_calls_never_overshoot (n : Nat) (rl : RateLimiter) (cid : String)
    (t₁ : Int) (rest : List Int)
    (hreq : rl.requests = (n : Int)) (hw : 0 < rl.window)
    (habs : lookupClient rl.clients cid = none)
    (hin : ∀ t ∈ rest, t - t₁ < rl.window) :
    (((runCalls rl cid (t₁ :: rest)).1.filter (fun p => p.1)).length
        = min (rest.length + 1) n) ∧
    (((runCalls rl cid (t₁ :: rest)).1.filter (fun p => !p.1)).length
        = (rest.length + 1) - min (rest.length + 1) n) := by
  have h1 := runCalls_fresh rl cid t₁ rest habs hw (by rw [hreq]; omega) hin
  rw [h1]
  obtain ⟨ha, hd⟩ := expectedResults_counts rl.requests (rest.length + 1) 0
  constructor
  · rw [ha, hreq]
    simp
  · rw [hd, hreq]
    simp

theorem c10_serialized_calls_never_overshoot_witness :
    (((runCalls (create_rate_limiter 2 60) "A" [0, 0, 0, 0]).1.filter
        (fun p => p.1)).length = 2) ∧
    (((runCalls (create_rate_limiter 2 60) "A" [0, 0, 0, 0]).1.filter
        (fun p => !p.1)).length = 2) := by
  have h := c10_serialized_calls_never_overshoot 2 (create_rate_limiter 2 60) "A" 0 [0, 0, 0]
    (by decide) (by decide) (by decide) (by decide)
  simpa using h

/-- The keys of the client dictionary (Python dict keys, hence unique in reachable
states). -/
def clientKeys (l : List (String × Int × Int)) : List String :=
  l.map (fun e => e.1)

theorem lookupClient_eq_none_of_not_mem_keys (l : List (String × Int × Int)) (cid : String)
    (h : cid ∉ clientKeys l) : lookupClient l cid = none := by
  induction l with
  | nil => rfl
  | cons e rest ih =>
    simp only [clientKeys, List.map_cons, List.mem_cons, not_or] at h
    simp only [lookupClient]
    rw [if_neg (fun he : e.1 = cid => h.1 he.symm)]
    exact ih (by simp only [clientKeys]; exact h.2)

theorem not_mem_keys_filter (rest : List (String × Int × Int))
    (p : (String × Int × Int) → Bool) (cid : String) (h : cid ∉ clientKeys rest) :
    cid ∉ clientKeys (rest.filter p) := by
  intro hc
  apply h
  simp only [clientKeys, List.mem_map] at hc ⊢
  obtain ⟨e, he, heq⟩ := hc
  exact ⟨e, List.mem_of_mem_filter he, heq⟩

/-- Lookup after sweeping stale entries from the dictionary: an entry is gone exactly when
it was stale, and surviving entries are returned unchanged. -/
theorem lookupClient_filter_stale (l : List (String × Int × Int)) (now w : Int)
    (cid : String) (hnodup : (clientKeys l).Nodup) :
    lookupClient (l.filter (fun e => !decide (now - e.2.2 ≥ w * 2))) cid
      = match lookupClient l cid with
        | some (c, ws) => if now - ws ≥ w * 2 then none else some (c, ws)
        | none => none := by
  induction l with
  | nil => rfl
  | cons e rest ih =>
    have hcons : clientKeys (e :: rest) = e.1 :: clientKeys rest := rfl
    rw [hcons] at hnodup
    obtain ⟨hnotin, hnodup'⟩ := List.nodup_cons.mp hnodup
    by_cases hkey : e.1 = cid
    · by_cases hstale : now - e.2.2 ≥ w * 2
      · have hnone : lookupClient (rest.filter (fun e => !decide (now - e.2.2 ≥ w * 2))) cid
            = none := by
          apply lookupClient_eq_none_of_not_mem_keys
          exact not_mem_keys_filter rest _ cid (hkey ▸ hnotin)
        simp [List.filter_cons, hstale, lookupClient, hkey, hnone]
      · simp [List.filter_cons, hstale, lookupClient, hkey]
    · by_cases hstale : now - e.2.2 ≥ w * 2
      · simp [List.filter_cons, hstale, lookupClient, hkey, ih hnodup']
      · simp [List.filter_cons, hstale, lookupClient, hkey, ih hnodup']

/-- C5: `cleanup_expired` removes exactly the entries whose elapsed time since
`window_start` is at least `2 × window`, and every surviving entry keeps its count and its
window_start unchanged. -/
theorem c5_cleanup_removes_exactly_stale (rl : RateLimiter) (now : Int)
    (hnodup : (clientKeys rl.clients).Nodup) (cid : String) :
    lookupClient ((rl.cleanup_expired now).clients) cid
      = match lookupClient rl.clients cid with
        | some (c, ws) => if now - ws ≥ rl.window * 2 then none else some (c, ws)
        | none => none :=
  lookupClient_filter_stale rl.clients now rl.window cid hnodup

theorem c5_cleanup_removes_exactly_stale_witness :
    lookupClient ((RateLimiter.cleanup_expired
        { requests := 3, window := 60, clients := [("A", 2, 0), ("B", 1, 100)] }
        120).clients) "A" = none ∧
    lookupClient ((RateLimiter.cleanup_expired
        { requests := 3, window := 60, clients := [("A", 2, 0), ("B", 1, 100)] }
        120).clients) "B" = some (1, 100) := by
  constructor
  · rw [c5_cleanup_removes_exactly_stale
      { requests := 3, window := 60, clients := [("A", 2, 0), ("B", 1, 100)] }
      120 (by decide) "A"]
    decide
  · rw [c5_cleanup_removes_exactly_stale
      { requests := 3, window := 60, clients := [("A", 2, 0), ("B", 1, 100)] }
      120 (by decide) "B"]
    decide

/-- C6 (counterexample to the claim as stated): a non-exempt, enabled request that reaches
the admission check and is denied does NOT increment the middleware's cleanup counter — the
429 is raised before the `cleanup_counter += 1` line runs, so the counter stays at 5. -/
theorem c6_counterexample_denied_request_skips_counter :
    ((Middleware.dispatch ⟨⟨0, 60, []⟩, 5, true, 0, 60⟩ "/x" (some "9.9.9.9") 0).1
        = DispatchResult.denied "Rate limit exceeded" 0 "60s" 60) ∧
    ((Middleware.dispatch ⟨⟨0, 60, []⟩, 5, true, 0, 60⟩ "/x" (some "9.9.9.9") 0).2
        ).cleanup_counter = 5 := by
  decide

/-- C6 (amended): the cleanup counter is incremented only on allowed non-exempt, enabled
requests; a denied request leaves it (and the limiter, beyond the admission check's own
effect) unchanged; when the incremented counter reaches 100 the sweep runs and the counter
resets to 0, otherwise the increment is kept and no sweep runs. -/
theorem c6_cleanup_counter_increment_on_allowed_only (m : Middleware) (path : String)
    (client : Option String) (t : Int)
    (hen : m.enabled = true)
    (hpath : path ∉ (["/docs", "/redoc", "/openapi.json"] : List String)) :
    ((m.rate_limiter.is_allowed (clientIp client) t).1.1 = false →
      ((m.dispatch path client t).2).cleanup_counter = m.cleanup_counter ∧
      ((m.dispatch path client t).2).rate_limiter
        = (m.rate_limiter.is_allowed (clientIp client) t).2) ∧
    ((m.rate_limiter.is_allowed (clientIp client) t).1.1 = true →
      m.cleanup_counter + 1 ≥ 100 →
      ((m.dispatch path client t).2).cleanup_counter = 0 ∧
      ((m.dispatch path client t).2).rate_limiter
        = ((m.rate_limiter.is_allowed (clientIp client) t).2).cleanup_expired t) ∧
    ((m.rate_limiter.is_allowed (clientIp client) t).1.1 = true →
      ¬ m.cleanup_counter + 1 ≥ 100 →
      ((m.dispatch path client t).2).cleanup_counter = m.cleanup_counter + 1 ∧
      ((m.dispatch path client t).2).rate_limiter
        = (m.rate_limiter.is_allowed (clientIp client) t).2) := by
  refine ⟨?_, ?_, ?_⟩
  · intro hden
    simp [Middleware.dispatch, hen, hpath, hden]
  · intro hall hge
    simp [Middleware.dispatch, hen, hpath, hall, hge]
  · intro hall hlt
    simp [Middleware.dispatch, hen, hpath, hall, hlt]

theorem c6_cleanup_counter_increment_on_allowed_only_witness :
    ((Middleware.dispatch ⟨⟨2, 60, []⟩, 0, true, 2, 60⟩ "/x" (some "1.2.3.4") 0).2
        ).cleanup_counter = 1 ∧
    ((Middleware.dispatch ⟨⟨2, 60, []⟩, 0, true, 2, 60⟩ "/x" (some "1.2.3.4") 0).2
        ).rate_limiter
      = (RateLimiter.is_allowed ⟨2, 60, []⟩ (clientIp (some "1.2.3.4")) 0).2 := by
  have h := c6_cleanup_counter_increment_on_allowed_only ⟨⟨2, 60, []⟩, 0, true, 2, 60⟩
    "/x" (some "1.2.3.4") 0 (by decide) (by decide)
  simpa using h.2.2 (by decide) (by decide)

/-- A call that comes back allowed when at least one request per window is configured always
reports a non-negative remaining count. -/
theorem is_allowed_remaining_nonneg (rl : RateLimiter) (cid : String) (t rem : Int)
    (hreq : 1 ≤ rl.requests) (h : (rl.is_allowed cid t).1 = (true, rem)) : 0 ≤ rem := by
  simp only [RateLimiter.is_allowed] at h
  split at h
  · simp only [Prod.mk.injEq] at h
    omega
  · split at h
    · simp at h
    · simp only [Prod.mk.injEq] at h
      omega

/-- C7 (counterexample to the claim as stated): with `max_requests = 0`, a request from a
client whose window has elapsed is allowed — and the middleware attaches a remaining header
of `"-1"`, so the remaining header value is not `≥ 0` for every configuration. -/
theorem c7_counterexample_negative_remaining_header :
    (Middleware.dispatch ⟨⟨0, 60, [("1.2.3.4", 0, 0)]⟩, 0, true, 0, 60⟩ "/x"
        (some "1.2.3.4") 60).1
      = DispatchResult.allowed "0" "-1" "60s" := by
  decide

/-- C7 (amended): on every allowed, non-exempt request the middleware attaches exactly the
three headers — the configured limit in decimal, the post-consumption remaining count, and
the window formatted `"{window_seconds}s"` — and whenever the configured limit is at least 1
the remaining value is non-negative. -/
theorem c7_allowed_response_headers (m : Middleware) (path : String) (client : Option String)
    (t rem : Int)
    (hen : m.enabled = true)
    (hpath : path ∉ (["/docs", "/redoc", "/openapi.json"] : List String))
    (hallow : (m.rate_limiter.is_allowed (clientIp client) t).1 = (true, rem)) :
    (m.dispatch path client t).1
      = DispatchResult.allowed (toString m.requests_limit) (toString rem)
          (toString m.window_seconds ++ "s") ∧
    (m.rate_limiter.requests = m.requests_limit → 1 ≤ m.requests_limit → 0 ≤ rem) := by
  constructor
  · have h1 : (m.rate_limiter.is_allowed (clientIp client) t).1.1 = true := by rw [hallow]
    have h2 : (m.rate_limiter.is_allowed (clientIp client) t).1.2 = rem := by rw [hallow]
    by_cases hge : m.cleanup_counter + 1 ≥ 100
    · simp [Middleware.dispatch, hen, hpath, h1, h2, hge]
    · simp [Middleware.dispatch, hen, hpath, h1, h2, hge]
  · intro heq hone
    exact is_allowed_remaining_nonneg m.rate_limiter (clientIp client) t rem
      (by rw [heq]; exact hone) hallow

theorem c7_allowed_response_headers_witness :
    (Middleware.dispatch ⟨⟨3, 60, []⟩, 0, true, 3, 60⟩ "/x" none 0).1
        = DispatchResult.allowed "3" "2" "60s" ∧ (0 : Int) ≤ 2 := by
  have h := c7_allowed_response_headers ⟨⟨3, 60, []⟩, 0, true, 3, 60⟩ "/x" none 0 2
    (by decide) (by decide) (by decide)
  refine ⟨?_, h.2 (by decide) (by decide)⟩
  rw [h.1]
  decide
